import Mathlib

/-!
Shallow embedding of the `mcpx` PyPI packaging shim
(`src/packaging/pypi/src/mcpx_go/install.py` and `cli.py`).

Modelling conventions:
* Strings are Lean `String`s; Python `str.lower()` is modelled by
  `strLower` (character-wise `Char.toLower`), which agrees with Python for ASCII input.
* The process environment is a function `Env := String → Option String`
  (`os.environ.get`); the user's home directory is an explicit parameter.
* A tar archive is a list of `TarEntry` records; `tar.extractfile` is the
  `content` field (`none` when the entry cannot be read as a stream).
* Filesystem side effects are recorded in explicit traces; whether the
  mkdir/open/chmod sequence of `_extract_member` at a given destination
  path succeeds is given by an oracle `FS.writeOk` (an `OSError` anywhere
  in that sequence is one failure of the whole step).
* The network is an oracle `World.net` mapping a URL to the outcome of
  `urllib.request.urlopen` plus the subsequent `tarfile.open` parse of the
  downloaded bytes.
-/

/-- The process environment: `os.environ.get`. -/
def Env : Type := String → Option String

/-- Model of `DEFAULT_RELEASE_BASE_URL` from `install.py`. -/
def DEFAULT_RELEASE_BASE_URL : String := "https://github.com/lydakis/mcpx/releases/download"

/-- Model of `DEFAULT_RELEASE_TAG_PREFIX` from `install.py`. -/
def DEFAULT_RELEASE_TAG_PREFIX : String := "v"

/-- Python's `str.rstrip("/")`: drop every trailing `'/'` character. -/
def rstripSlash (s : String) : String :=
  ⟨(s.data.reverse.dropWhile (fun c => c == '/')).reverse⟩

/-- Python `str.lower()` (ASCII): `String.toLower` written character-wise
over the underlying character list, so that it reduces in the kernel. -/
def strLower (s : String) : String :=
  ⟨s.data.map Char.toLower⟩

/-- The association table `os_map` of `resolve_platform`. -/
def osMap : List (String × String) := [("darwin", "darwin"), ("linux", "linux")]

/-- The association table `arch_map` of `resolve_platform`. -/
def archMap : List (String × String) :=
  [("x86_64", "amd64"), ("amd64", "amd64"), ("arm64", "arm64"), ("aarch64", "arm64")]

/-- Model of `resolve_platform` from `install.py`, with the raw values of
`platform.system()` and `platform.machine()` taken as arguments.
A raised `RuntimeError` is modelled as `Except.error` carrying the message. -/
def resolve_platform (rawOS rawMachine : String) : Except String (String × String) :=
  match osMap.lookup (strLower rawOS), archMap.lookup (strLower rawMachine) with
  | none, _ => .error ("unsupported platform: " ++ strLower rawOS)
  | some _, none => .error ("unsupported architecture: " ++ strLower rawMachine)
  | some o, some a => .ok (o, a)

deriving instance DecidableEq for Except

/-- Model of `release_asset_url` from `install.py`, with the environment explicit. -/
def release_asset_url (env : Env) (version goos goarch : String) : String :=
  let base := rstripSlash ((env "MCPX_GO_RELEASE_BASE_URL").getD DEFAULT_RELEASE_BASE_URL)
  let tag := (env "MCPX_GO_RELEASE_TAG_PREFIX").getD DEFAULT_RELEASE_TAG_PREFIX ++ version
  let asset := "mcpx_" ++ version ++ "_" ++ goos ++ "_" ++ goarch ++ ".tar.gz"
  base ++ "/" ++ tag ++ "/" ++ asset

/-- Model of `cache_root` from `install.py` (`XDG_CACHE_HOME`, falling back to
`~/.cache`; Python treats the empty string as unset). -/
def cache_root (env : Env) (home : String) : String :=
  match env "XDG_CACHE_HOME" with
  | some s => if s = "" then home ++ "/.cache" else s
  | none => home ++ "/.cache"

/-- Model of `data_root` from `install.py` (`XDG_DATA_HOME`, falling back to
`~/.local/share`; Python treats the empty string as unset). -/
def data_root (env : Env) (home : String) : String :=
  match env "XDG_DATA_HOME" with
  | some s => if s = "" then home ++ "/.local/share" else s
  | none => home ++ "/.local/share"

/-- Model of `binary_path` from `install.py` with the version supplied (the code's
default argument resolves to `package_version()`, taken here as input). -/
def binary_path (env : Env) (home version : String) : String :=
  cache_root env home ++ "/mcpx-go/" ++ version ++ "/mcpx"

/-- Model of `manpage_path` from `install.py`. -/
def manpage_path (env : Env) (home : String) : String :=
  data_root env home ++ "/man/man1/mcpx.1"

/-- Python `str.split("/")` on the underlying character list (written by
structural recursion so that it reduces in the kernel). -/
def splitCharsOn (sep : Char) : List Char → List (List Char)
  | [] => [[]]
  | c :: rest =>
    let r := splitCharsOn sep rest
    if c == sep then [] :: r
    else
      match r with
      | [] => [[c]]
      | h :: t => (c :: h) :: t

/-- The path components of `s` (Python `s.split("/")`). -/
def pathComponents (s : String) : List String :=
  (splitCharsOn '/' s.data).map (fun l => (⟨l⟩ : String))

/-- Join path components back with `"/"`. -/
def joinSlash : List String → String
  | [] => ""
  | [a] => a
  | a :: rest => a ++ "/" ++ joinSlash rest

/-- Python `PurePosixPath(s).name`: the final path component, after the
normalisation that drops empty components and `"."` components. -/
def pathBaseName (s : String) : String :=
  (((pathComponents s).filter (fun c => c != "" && c != ".")).getLast?).getD ""

/-- Python `PurePosixPath(s).parent` as used by `output_path.parent`:
everything before the final component (best-effort model, only recorded
in traces). -/
def pathParent (s : String) : String :=
  joinSlash ((pathComponents s).dropLast)

/-- One member of a tar archive, as `_extract_binary` observes it:
`name` is `member.name`, `isfile` is `member.isfile()`, and `content` is
the byte stream `tar.extractfile(member)` yields (`none` when that call
returns `None`). -/
structure TarEntry where
  name : String
  isfile : Bool
  content : Option String
deriving Repr, DecidableEq

/-- The filesystem oracle: `writeOk p` says whether the
mkdir-parents/open-for-write/chmod sequence of `_extract_member`
succeeds at destination path `p` (an `OSError` anywhere in that
sequence counts as the step failing). -/
structure FS where
  writeOk : String → Bool

/-- A completed file installation: path, bytes written, and the mode
passed to `chmod`. -/
structure FileWrite where
  path : String
  content : String
  mode : Nat
deriving Repr, DecidableEq

/-- The filesystem actions an extraction performed. -/
structure ExtractTrace where
  mkdirs : List String := []
  writes : List FileWrite := []
deriving Repr, DecidableEq

/-- Model of `_extract_member` from `install.py`: read the member's stream
(failing with `RuntimeError` when `extractfile` returns `None`), create
the destination's parent directories, write the bytes and chmod.  An
`OSError` from the filesystem is modelled as `Except.error` as well,
since `_extract_binary` treats `OSError` and `RuntimeError` alike. -/
def _extract_member (fs : FS) (member : TarEntry) (output_path : String) (mode : Nat) :
    Except String (List String × FileWrite) :=
  match member.content with
  | none => .error ("failed to read " ++ member.name ++ " from archive")
  | some data =>
    if fs.writeOk output_path then
      .ok ([pathParent output_path], ⟨output_path, data, mode⟩)
    else
      .error ("OSError writing " ++ output_path)

/-- The predicate `item.isfile() and Path(item.name).name == n` used to
select archive members in `_extract_binary`. -/
def memberNamed (n : String) (e : TarEntry) : Bool :=
  e.isfile && pathBaseName e.name == n

/-- Model of `_extract_binary` from `install.py`.  `archive` is the result of
`tarfile.open` on the downloaded file: `.error` when the archive cannot
be parsed, `.ok tar` with `tar.getmembers() = tar` otherwise.  Returns
the outcome together with the trace of filesystem actions performed; a
failure of the optional man-page step is swallowed. -/
def _extract_binary (fs : FS) (env : Env) (home : String)
    (archive : Except String (List TarEntry)) (output_path : String) :
    Except String Unit × ExtractTrace :=
  match archive with
  | .error e => (.error e, {})
  | .ok tar =>
    match tar.find? (memberNamed "mcpx") with
    | none => (.error "archive did not contain mcpx binary", {})
    | some binary_member =>
      match _extract_member fs binary_member output_path 0o755 with
      | .error e => (.error e, {})
      | .ok (md, w) =>
        match tar.find? (memberNamed "mcpx.1") with
        | none => (.ok (), ⟨md, [w]⟩)
        | some man_member =>
          match _extract_member fs man_member (manpage_path env home) 0o644 with
          | .error _ => (.ok (), ⟨md, [w]⟩)
          | .ok (md2, w2) => (.ok (), ⟨md ++ md2, [w, w2]⟩)

/-- Outcome of `urllib.request.urlopen(url)` followed by reading the body:
an HTTP error status, a transport-level error, or a successful download
whose bytes parse (or fail to parse) as a gzip tar via `tarfile.open`. -/
inductive DownloadOutcome where
  | httpError (code : Nat)
  | urlError (reason : String)
  | success (archive : Except String (List TarEntry))
deriving Repr

/-- The ambient state `ensure_binary` runs in: which paths exist, the
environment, the home directory, `package_version()`, the raw
`platform.system()` / `platform.machine()` strings, the network oracle
and the filesystem oracle. -/
structure World where
  files : List String
  env : Env
  home : String
  version : String
  rawOS : String
  rawMachine : String
  net : String → DownloadOutcome
  fs : FS

/-- The observable side effects of one `ensure_binary` run: URLs fetched,
directories created, files written, whether the private temporary archive
file was ever created, and whether it is still on disk afterwards. -/
structure Trace where
  netRequests : List String := []
  mkdirs : List String := []
  writes : List FileWrite := []
  tmpCreated : Bool := false
  tmpOnDisk : Bool := false
deriving Repr, DecidableEq

/-- Model of `ensure_binary` from `install.py`, as a function from a `World` to a
result (the returned path, or the raised error's message) paired with the
trace of its side effects. -/
def ensure_binary (w : World) (force : Bool) : Except String String × Trace :=
  let target := binary_path w.env w.home w.version
  if w.files.contains target && !force then
    (.ok target, {})
  else if w.env "MCPX_GO_SKIP_DOWNLOAD" == some "1" then
    (.error "bundled binary download skipped by MCPX_GO_SKIP_DOWNLOAD=1", {})
  else
    match resolve_platform w.rawOS w.rawMachine with
    | .error e => (.error e, {})
    | .ok (goos, goarch) =>
      let url := release_asset_url w.env w.version goos goarch
      match w.net url with
      | .httpError code =>
        (.error ("failed to download " ++ url ++ ": HTTP " ++ toString code),
         { netRequests := [url], mkdirs := [pathParent target],
           tmpCreated := true, tmpOnDisk := false })
      | .urlError reason =>
        (.error ("failed to download " ++ url ++ ": " ++ reason),
         { netRequests := [url], mkdirs := [pathParent target],
           tmpCreated := true, tmpOnDisk := false })
      | .success archive =>
        let (res, et) := _extract_binary w.fs w.env w.home archive target
        (res.map (fun _ => target),
         { netRequests := [url], mkdirs := pathParent target :: et.mkdirs,
           writes := et.writes, tmpCreated := true, tmpOnDisk := false })

/-- The world after a run: every file the run wrote now exists. -/
def applyTrace (w : World) (t : Trace) : World :=
  { w with files := t.writes.map FileWrite.path ++ w.files }

/-- How an invocation of the CLI entry point terminates: either the
process image is replaced (`os.execv`) by `path` with argument vector
`argv`, or `main` returns the exit code. -/
inductive ProcOutcome where
  | execed (path : String) (argv : List String)
  | exited (code : Nat)
deriving Repr, DecidableEq

/-- Model of `main` from `cli.py`: `argv` is `sys.argv[1:]`, `whichMcpx` the result
of `shutil.which("mcpx")`.  Returns the process outcome and the lines
written to stderr.  `_exec(command, argv)` is `os.execv(command,
[command, *argv])`, which replaces the process and does not return. -/
def cli_main (w : World) (whichMcpx : Option String) (argv : List String) :
    ProcOutcome × List String :=
  match ensure_binary w false with
  | (.ok binary, _) => (.execed binary (binary :: argv), [])
  | (.error e, _) =>
    match whichMcpx with
    | some fallback => (.execed fallback (fallback :: argv), [])
    | none => (.exited 1, ["mcpx: " ++ e ++ "\n"])

/-! ## Helper lemmas -/

theorem dropWhile_reverse_eq_self (l : List Char) (h : l.getLast? ≠ some '/') :
    (l.reverse.dropWhile (fun c => c == '/')).reverse = l := by
  rw [← List.head?_reverse] at h
  cases hrev : l.reverse with
  | nil =>
    have hl : l = [] := by
      have := congrArg List.reverse hrev
      simpa using this
    simp [hrev, hl]
  | cons c t =>
    rw [hrev] at h
    have hc : (c == '/') = false := by
      simp only [List.head?_cons, ne_eq] at h
      simp only [beq_eq_false_iff_ne, ne_eq]
      intro hcc
      exact h (by rw [hcc])
    have hl : l = t.reverse ++ [c] := by
      simpa using congrArg List.reverse hrev
    simp [List.dropWhile_cons, hc, hl]

theorem rstripSlash_eq_self (s : String) (h : s.data.getLast? ≠ some '/') :
    rstripSlash s = s := by
  cases s with
  | mk l =>
    show String.mk (l.reverse.dropWhile (fun c => c == '/')).reverse = ⟨l⟩
    rw [dropWhile_reverse_eq_self l h]


theorem find?_append_first (p : TarEntry → Bool) (pre : List TarEntry) (m : TarEntry)
    (post : List TarEntry) (hpre : ∀ e ∈ pre, p e = false) (hm : p m = true) :
    (pre ++ m :: post).find? p = some m := by
  induction pre with
  | nil => simp [List.find?_cons, hm]
  | cons a l ih =>
    have ha : p a = false := hpre a (by simp)
    have ih' := ih (fun e he => hpre e (by simp [he]))
    simp [List.find?_cons, ha, ih']

theorem osMap_lookup_none (k : String) (h : k ∉ ["darwin", "linux"]) :
    osMap.lookup k = none := by
  simp only [List.mem_cons, List.not_mem_nil, or_false, not_or] at h
  have h1 : (k == "darwin") = false := beq_eq_false_iff_ne.mpr h.1
  have h2 : (k == "linux") = false := beq_eq_false_iff_ne.mpr h.2
  simp [osMap, List.lookup, h1, h2]

theorem osMap_lookup_self (k : String) (h : k ∈ ["darwin", "linux"]) :
    osMap.lookup k = some k := by
  simp only [List.mem_cons, List.not_mem_nil, or_false] at h
  rcases h with h | h <;> simp [osMap, List.lookup, h]

theorem archMap_lookup_none (k : String) (h : k ∉ ["x86_64", "amd64", "arm64", "aarch64"]) :
    archMap.lookup k = none := by
  simp only [List.mem_cons, List.not_mem_nil, or_false, not_or] at h
  have h1 : (k == "x86_64") = false := beq_eq_false_iff_ne.mpr h.1
  have h2 : (k == "amd64") = false := beq_eq_false_iff_ne.mpr h.2.1
  have h3 : (k == "arm64") = false := beq_eq_false_iff_ne.mpr h.2.2.1
  have h4 : (k == "aarch64") = false := beq_eq_false_iff_ne.mpr h.2.2.2
  simp [archMap, List.lookup, h1, h2, h3, h4]

/-! ## Claims -/

/-- Claim C5: `resolve_platform` lowercases the raw OS and machine strings
and maps them through fixed tables: `("Darwin", "x86_64")` yields
`("darwin", "amd64")` and `("Linux", "aarch64")` yields
`("linux", "arm64")`; for every OS whose lowercasing lies outside
`{darwin, linux}` it fails with an "unsupported platform" error naming
that value (e.g. `("Windows", "x86_64")` fails naming "windows"), and —
the OS check passing — for every machine whose lowercasing lies outside
`{x86_64, amd64, arm64, aarch64}` it fails with an "unsupported
architecture" error naming that value. -/
theorem resolve_platform_spec :
    resolve_platform "Darwin" "x86_64" = .ok ("darwin", "amd64") ∧
    resolve_platform "Linux" "aarch64" = .ok ("linux", "arm64") ∧
    resolve_platform "Windows" "x86_64" = .error "unsupported platform: windows" ∧
    (∀ rawOS rawMachine : String, strLower rawOS ∉ ["darwin", "linux"] →
      resolve_platform rawOS rawMachine = .error ("unsupported platform: " ++ strLower rawOS)) ∧
    (∀ rawOS rawMachine : String, strLower rawOS ∈ ["darwin", "linux"] →
      strLower rawMachine ∉ ["x86_64", "amd64", "arm64", "aarch64"] →
      resolve_platform rawOS rawMachine =
        .error ("unsupported architecture: " ++ strLower rawMachine)) := by
  refine ⟨by decide, by decide, by decide, ?_, ?_⟩
  · intro rawOS rawMachine h
    unfold resolve_platform
    rw [osMap_lookup_none _ h]
  · intro rawOS rawMachine hos harch
    unfold resolve_platform
    rw [osMap_lookup_self _ hos, archMap_lookup_none _ harch]

/-- Witness for C5 at concrete unsupported inputs. -/
theorem resolve_platform_spec_witness :
    resolve_platform "Plan9" "x86_64" = .error "unsupported platform: plan9" ∧
    resolve_platform "Linux" "i686" = .error "unsupported architecture: i686" :=
  ⟨(resolve_platform_spec.2.2.2.1 "Plan9" "x86_64" (by decide)).trans (by decide),
   (resolve_platform_spec.2.2.2.2 "Linux" "i686" (by decide) (by decide)).trans (by decide)⟩

/-- Claim C6: `release_asset_url` returns
`{base}/{tag_prefix}{version}/mcpx_{version}_{os}_{arch}.tar.gz` for every
version, os and arch string, where base defaults to the fixed GitHub
releases URL and tag_prefix defaults to `"v"`, each overridable through
`MCPX_GO_RELEASE_BASE_URL` and `MCPX_GO_RELEASE_TAG_PREFIX` (the base is
used after stripping trailing slashes, so any override without a trailing
slash appears verbatim); with the defaults, version `"1.2.3"`, os
`"linux"`, arch `"amd64"` produce a URL ending in
`/v1.2.3/mcpx_1.2.3_linux_amd64.tar.gz`.  The function is a pure string
computation: no network oracle occurs in it. -/
theorem release_asset_url_spec :
    DEFAULT_RELEASE_BASE_URL = "https://github.com/lydakis/mcpx/releases/download" ∧
    (∀ (env : Env) (version goos goarch : String),
      env "MCPX_GO_RELEASE_BASE_URL" = none → env "MCPX_GO_RELEASE_TAG_PREFIX" = none →
      release_asset_url env version goos goarch =
        DEFAULT_RELEASE_BASE_URL ++ "/" ++ ("v" ++ version) ++ "/" ++
          ("mcpx_" ++ version ++ "_" ++ goos ++ "_" ++ goarch ++ ".tar.gz")) ∧
    (∀ (env : Env) (version goos goarch b p : String),
      env "MCPX_GO_RELEASE_BASE_URL" = some b → b.data.getLast? ≠ some '/' →
      env "MCPX_GO_RELEASE_TAG_PREFIX" = some p →
      release_asset_url env version goos goarch =
        b ++ "/" ++ (p ++ version) ++ "/" ++
          ("mcpx_" ++ version ++ "_" ++ goos ++ "_" ++ goarch ++ ".tar.gz")) ∧
    release_asset_url (fun _ => none) "1.2.3" "linux" "amd64" =
      DEFAULT_RELEASE_BASE_URL ++ "/v1.2.3/mcpx_1.2.3_linux_amd64.tar.gz" := by
  refine ⟨rfl, ?_, ?_, by decide⟩
  · intro env version goos goarch h1 h2
    unfold release_asset_url
    rw [h1, h2]
    simp only [Option.getD_none]
    rw [rstripSlash_eq_self DEFAULT_RELEASE_BASE_URL (by decide)]
    rfl
  · intro env version goos goarch b p h1 hb h2
    unfold release_asset_url
    rw [h1, h2]
    simp only [Option.getD_some]
    rw [rstripSlash_eq_self b hb]

/-- Witness for C6 with both environment overrides set. -/
theorem release_asset_url_spec_witness :
    release_asset_url
        (fun k => if k = "MCPX_GO_RELEASE_BASE_URL" then some "https://mirror.example"
                  else if k = "MCPX_GO_RELEASE_TAG_PREFIX" then some "rel-" else none)
        "2.0" "darwin" "arm64" =
      "https://mirror.example/rel-2.0/mcpx_2.0_darwin_arm64.tar.gz" :=
  (release_asset_url_spec.2.2.1
      (fun k => if k = "MCPX_GO_RELEASE_BASE_URL" then some "https://mirror.example"
                else if k = "MCPX_GO_RELEASE_TAG_PREFIX" then some "rel-" else none)
      "2.0" "darwin" "arm64" "https://mirror.example" "rel-"
      (by decide) (by decide) (by decide)).trans (by decide)

/-- Claim C2: for every parsed archive containing no regular-file entry
whose base filename is "mcpx", `_extract_binary` fails with the
"archive did not contain mcpx binary" error and performs no filesystem
action at all: no directory is created and no file is written. -/
theorem extract_binary_missing_entry (fs : FS) (env : Env) (home : String)
    (tar : List TarEntry) (out : String)
    (h : ∀ e ∈ tar, e.isfile = true → pathBaseName e.name ≠ "mcpx") :
    _extract_binary fs env home (.ok tar) out =
      (.error "archive did not contain mcpx binary", ⟨[], []⟩) := by
  have hfind : tar.find? (memberNamed "mcpx") = none := by
    apply List.find?_eq_none.mpr
    intro e he
    unfold memberNamed
    cases hisf : e.isfile with
    | false => simp
    | true => simp [h e he hisf]
  simp [_extract_binary, hfind]

/-- Witness for C2: an archive whose only regular file is a readme, plus
a directory entry that happens to be called "mcpx" (directories do not
count as the executable). -/
theorem extract_binary_missing_entry_witness :
    _extract_binary ⟨fun _ => true⟩ (fun _ => none) "/home/u"
        (.ok [⟨"docs/readme", true, some "hello"⟩, ⟨"mcpx", false, none⟩]) "/out/mcpx" =
      (.error "archive did not contain mcpx binary", ⟨[], []⟩) :=
  extract_binary_missing_entry ⟨fun _ => true⟩ (fun _ => none) "/home/u"
    [⟨"docs/readme", true, some "hello"⟩, ⟨"mcpx", false, none⟩] "/out/mcpx" (by decide)

/-- Claim C1: whenever the archive's first regular "mcpx" entry is
readable and the output destination is writable, `_extract_binary`
succeeds and installs the executable with mode `0o755` (execute bits
set) — with no assumption whatsoever on the man-page lookup or on the
filesystem's behaviour at the documentation destination, so every
documentation-extraction failure is swallowed; and, second, a failure of
the mandatory executable extraction itself is always propagated. -/
theorem extract_binary_doc_best_effort :
    (∀ (fs : FS) (env : Env) (home out : String) (tar : List TarEntry)
        (m : TarEntry) (d : String),
      tar.find? (memberNamed "mcpx") = some m → m.content = some d →
      fs.writeOk out = true →
      (_extract_binary fs env home (.ok tar) out).1 = .ok () ∧
      FileWrite.mk out d 0o755 ∈ (_extract_binary fs env home (.ok tar) out).2.writes) ∧
    (∀ (fs : FS) (env : Env) (home out e : String) (tar : List TarEntry) (m : TarEntry),
      tar.find? (memberNamed "mcpx") = some m →
      _extract_member fs m out 0o755 = .error e →
      _extract_binary fs env home (.ok tar) out = (.error e, ⟨[], []⟩)) := by
  constructor
  · intro fs env home out tar m d hfind hc hw
    have hm : _extract_member fs m out 0o755 =
        .ok ([pathParent out], ⟨out, d, 0o755⟩) := by
      unfold _extract_member
      rw [hc]
      simp [hw]
    cases h2 : tar.find? (memberNamed "mcpx.1") with
    | none => simp [_extract_binary, hfind, hm, h2]
    | some mm =>
      cases h3 : _extract_member fs mm (manpage_path env home) 0o644 with
      | error e2 => simp [_extract_binary, hfind, hm, h2, h3]
      | ok p => simp [_extract_binary, hfind, hm, h2, h3]
  · intro fs env home out e tar m hfind hmem
    simp [_extract_binary, hfind, hmem]

/-- Witness for C1: the man-page destination is unwritable (the
filesystem oracle only accepts the binary's output path), yet extraction
succeeds and the executable is installed. -/
theorem extract_binary_doc_best_effort_witness :
    (_extract_binary ⟨fun p => p == "/out/mcpx"⟩ (fun _ => none) "/home/u"
        (.ok [⟨"mcpx", true, some "bin-bytes"⟩, ⟨"man/man1/mcpx.1", true, some "man-bytes"⟩])
        "/out/mcpx").1 = .ok () ∧
    FileWrite.mk "/out/mcpx" "bin-bytes" 0o755 ∈
      (_extract_binary ⟨fun p => p == "/out/mcpx"⟩ (fun _ => none) "/home/u"
        (.ok [⟨"mcpx", true, some "bin-bytes"⟩, ⟨"man/man1/mcpx.1", true, some "man-bytes"⟩])
        "/out/mcpx").2.writes :=
  extract_binary_doc_best_effort.1 ⟨fun p => p == "/out/mcpx"⟩ (fun _ => none) "/home/u"
    "/out/mcpx" [⟨"mcpx", true, some "bin-bytes"⟩, ⟨"man/man1/mcpx.1", true, some "man-bytes"⟩]
    ⟨"mcpx", true, some "bin-bytes"⟩ "bin-bytes" (by decide) (by decide) (by decide)

/-- Claim C7: for every parsed archive whose first regular "mcpx" entry
and first regular "mcpx.1" entry are both readable, when both
destinations are writable, `_extract_binary` installs exactly two files:
the executable at the output path with the entry's bytes and mode
`0o755`, and the man page at `data_root/man/man1/mcpx.1` with the
entry's bytes and mode `0o644`. -/
theorem extract_binary_both_installed (fs : FS) (env : Env) (home out : String)
    (tar : List TarEntry) (bm mm : TarEntry) (bd md : String)
    (hb : tar.find? (memberNamed "mcpx") = some bm) (hbc : bm.content = some bd)
    (hm : tar.find? (memberNamed "mcpx.1") = some mm) (hmc : mm.content = some md)
    (hwb : fs.writeOk out = true) (hwm : fs.writeOk (manpage_path env home) = true) :
    _extract_binary fs env home (.ok tar) out =
      (.ok (), ⟨[pathParent out, pathParent (manpage_path env home)],
        [⟨out, bd, 0o755⟩, ⟨manpage_path env home, md, 0o644⟩]⟩) ∧
    manpage_path env home = data_root env home ++ "/man/man1/mcpx.1" := by
  have hmb : _extract_member fs bm out 0o755 =
      .ok ([pathParent out], ⟨out, bd, 0o755⟩) := by
    unfold _extract_member
    rw [hbc]
    simp [hwb]
  have hmm : _extract_member fs mm (manpage_path env home) 0o644 =
      .ok ([pathParent (manpage_path env home)], ⟨manpage_path env home, md, 0o644⟩) := by
    unfold _extract_member
    rw [hmc]
    simp [hwm]
  refine ⟨?_, rfl⟩
  simp [_extract_binary, hb, hmb, hm, hmm]

/-- Witness for C7 on a concrete archive with a fully writable
filesystem. -/
theorem extract_binary_both_installed_witness :
    _extract_binary ⟨fun _ => true⟩ (fun _ => none) "/home/u"
        (.ok [⟨"mcpx", true, some "bin-data"⟩, ⟨"man/man1/mcpx.1", true, some "man-data"⟩])
        "/cache/mcpx-go/1.0/mcpx" =
      (.ok (), ⟨["/cache/mcpx-go/1.0", "/home/u/.local/share/man/man1"],
        [⟨"/cache/mcpx-go/1.0/mcpx", "bin-data", 0o755⟩,
         ⟨"/home/u/.local/share/man/man1/mcpx.1", "man-data", 0o644⟩]⟩) :=
  ((extract_binary_both_installed ⟨fun _ => true⟩ (fun _ => none) "/home/u"
      "/cache/mcpx-go/1.0/mcpx"
      [⟨"mcpx", true, some "bin-data"⟩, ⟨"man/man1/mcpx.1", true, some "man-data"⟩]
      ⟨"mcpx", true, some "bin-data"⟩ ⟨"man/man1/mcpx.1", true, some "man-data"⟩
      "bin-data" "man-data"
      (by decide) (by decide) (by decide) (by decide) (by decide) (by decide)).1).trans
    (by decide)

/-- Claim C10: member selection in `_extract_binary` takes the first
matching entry in archive member order and ignores later duplicates,
enforcing no uniqueness: with a second regular "mcpx" entry present the
extraction still succeeds and writes the first entry's bytes, and with a
second regular "mcpx.1" entry present the installed man page carries the
first "mcpx.1" entry's bytes. -/
theorem extract_binary_first_match :
    (∀ (fs : FS) (env : Env) (home out : String) (pre post : List TarEntry)
        (m m2 : TarEntry) (d : String),
      memberNamed "mcpx" m = true → memberNamed "mcpx" m2 = true → m2 ∈ post →
      (∀ e ∈ pre, memberNamed "mcpx" e = false) →
      m.content = some d → fs.writeOk out = true →
      (_extract_binary fs env home (.ok (pre ++ m :: post)) out).1 = .ok () ∧
      (_extract_binary fs env home (.ok (pre ++ m :: post)) out).2.writes.head? =
        some ⟨out, d, 0o755⟩) ∧
    (∀ (fs : FS) (env : Env) (home out : String) (pre post : List TarEntry)
        (bm n n2 : TarEntry) (bd nd : String),
      (pre ++ n :: post).find? (memberNamed "mcpx") = some bm → bm.content = some bd →
      fs.writeOk out = true →
      memberNamed "mcpx.1" n = true → memberNamed "mcpx.1" n2 = true → n2 ∈ post →
      (∀ e ∈ pre, memberNamed "mcpx.1" e = false) →
      n.content = some nd → fs.writeOk (manpage_path env home) = true →
      (_extract_binary fs env home (.ok (pre ++ n :: post)) out).2.writes =
        [⟨out, bd, 0o755⟩, ⟨manpage_path env home, nd, 0o644⟩]) := by
  constructor
  · intro fs env home out pre post m m2 d hm hm2 hmem hpre hc hw
    have hfind : (pre ++ m :: post).find? (memberNamed "mcpx") = some m :=
      find?_append_first _ pre m post hpre hm
    have hme : _extract_member fs m out 0o755 =
        .ok ([pathParent out], ⟨out, d, 0o755⟩) := by
      unfold _extract_member
      rw [hc]
      simp [hw]
    cases h2 : (pre ++ m :: post).find? (memberNamed "mcpx.1") with
    | none => simp [_extract_binary, hfind, hme, h2]
    | some mm =>
      cases h3 : _extract_member fs mm (manpage_path env home) 0o644 with
      | error e2 => simp [_extract_binary, hfind, hme, h2, h3]
      | ok p => simp [_extract_binary, hfind, hme, h2, h3]
  · intro fs env home out pre post bm n n2 bd nd hb hbc hwb hn hn2 hmem hpre hnc hwm
    have hfindn : (pre ++ n :: post).find? (memberNamed "mcpx.1") = some n :=
      find?_append_first _ pre n post hpre hn
    have hmb : _extract_member fs bm out 0o755 =
        .ok ([pathParent out], ⟨out, bd, 0o755⟩) := by
      unfold _extract_member
      rw [hbc]
      simp [hwb]
    have hmn : _extract_member fs n (manpage_path env home) 0o644 =
        .ok ([pathParent (manpage_path env home)], ⟨manpage_path env home, nd, 0o644⟩) := by
      unfold _extract_member
      rw [hnc]
      simp [hwm]
    simp [_extract_binary, hb, hmb, hfindn, hmn]

/-- Witness for C10: an archive with two regular "mcpx" entries and two
regular "mcpx.1" entries; the first of each wins. -/
theorem extract_binary_first_match_witness :
    (_extract_binary ⟨fun _ => true⟩ (fun _ => none) "/home/u"
        (.ok [⟨"mcpx", true, some "first-bin"⟩, ⟨"dup/mcpx", true, some "second-bin"⟩,
              ⟨"a/mcpx.1", true, some "first-man"⟩, ⟨"b/mcpx.1", true, some "second-man"⟩])
        "/out/mcpx").1 = .ok () ∧
    (_extract_binary ⟨fun _ => true⟩ (fun _ => none) "/home/u"
        (.ok [⟨"mcpx", true, some "first-bin"⟩, ⟨"dup/mcpx", true, some "second-bin"⟩,
              ⟨"a/mcpx.1", true, some "first-man"⟩, ⟨"b/mcpx.1", true, some "second-man"⟩])
        "/out/mcpx").2.writes.head? = some ⟨"/out/mcpx", "first-bin", 0o755⟩ :=
  extract_binary_first_match.1 ⟨fun _ => true⟩ (fun _ => none) "/home/u" "/out/mcpx"
    [] [⟨"dup/mcpx", true, some "second-bin"⟩, ⟨"a/mcpx.1", true, some "first-man"⟩,
        ⟨"b/mcpx.1", true, some "second-man"⟩]
    ⟨"mcpx", true, some "first-bin"⟩ ⟨"dup/mcpx", true, some "second-bin"⟩ "first-bin"
    (by decide) (by decide) (by decide) (by decide) (by decide) (by decide)

theorem ensure_binary_hit (w : World)
    (h : w.files.contains (binary_path w.env w.home w.version) = true) :
    ensure_binary w false = (.ok (binary_path w.env w.home w.version), {}) := by
  have hmem : binary_path w.env w.home w.version ∈ w.files := by simpa using h
  simp [ensure_binary, h]
  intro hn
  exact absurd hmem hn

theorem extract_binary_ok_writes_target (fs : FS) (env : Env) (home out : String)
    (archive : Except String (List TarEntry)) (u : Unit) (et : ExtractTrace)
    (h : _extract_binary fs env home archive out = (.ok u, et)) :
    ∃ d rest, et.writes = FileWrite.mk out d 0o755 :: rest := by
  cases archive with
  | error e => simp [_extract_binary] at h
  | ok tar =>
    cases hf : tar.find? (memberNamed "mcpx") with
    | none => simp [_extract_binary, hf] at h
    | some bm =>
      cases hc : bm.content with
      | none => simp [_extract_binary, hf, _extract_member, hc] at h
      | some d =>
        cases hw : fs.writeOk out with
        | false => simp [_extract_binary, hf, _extract_member, hc, hw] at h
        | true =>
          have hme : _extract_member fs bm out 0o755 =
              .ok ([pathParent out], ⟨out, d, 0o755⟩) := by
            unfold _extract_member
            rw [hc]
            simp [hw]
          cases h2 : tar.find? (memberNamed "mcpx.1") with
          | none =>
            simp [_extract_binary, hf, hme, h2] at h
            exact ⟨d, [], by simp [← h]⟩
          | some mm =>
            cases h3 : _extract_member fs mm (manpage_path env home) 0o644 with
            | error e2 =>
              simp [_extract_binary, hf, hme, h2, h3] at h
              exact ⟨d, [], by simp [← h]⟩
            | ok p =>
              obtain ⟨md2, w2⟩ := p
              simp [_extract_binary, hf, hme, h2, h3] at h
              exact ⟨d, [w2], by simp [← h]⟩

theorem ensure_binary_ok_after (w : World) (p : String) (t : Trace)
    (h : ensure_binary w false = (.ok p, t)) :
    (applyTrace w t).files.contains (binary_path w.env w.home w.version) = true := by
  by_cases hmem : binary_path w.env w.home w.version ∈ w.files
  · have hc : w.files.contains (binary_path w.env w.home w.version) = true := by
      simpa using hmem
    rw [ensure_binary_hit w hc] at h
    injection h with h1 h2
    simp [applyTrace, ← h2, hmem]
  · by_cases hskip : w.env "MCPX_GO_SKIP_DOWNLOAD" = some "1"
    · simp [ensure_binary, hmem, hskip] at h
    · cases hplat : resolve_platform w.rawOS w.rawMachine with
      | error e => simp [ensure_binary, hmem, hskip, hplat] at h
      | ok pr =>
        obtain ⟨goos, goarch⟩ := pr
        cases hnet : w.net (release_asset_url w.env w.version goos goarch) with
        | httpError code => simp [ensure_binary, hmem, hskip, hplat, hnet] at h
        | urlError reason => simp [ensure_binary, hmem, hskip, hplat, hnet] at h
        | success archive =>
          cases hx : _extract_binary w.fs w.env w.home archive
              (binary_path w.env w.home w.version) with
          | mk res et =>
            cases res with
            | error e => simp [ensure_binary, hmem, hskip, hplat, hnet, hx, Except.map] at h
            | ok u =>
              simp [ensure_binary, hmem, hskip, hplat, hnet, hx, Except.map] at h
              obtain ⟨h1, h2⟩ := h
              obtain ⟨d, rest, hwr⟩ :=
                extract_binary_ok_writes_target w.fs w.env w.home
                  (binary_path w.env w.home w.version) archive u et hx
              subst h2
              simp [applyTrace, hwr]

/-- Claim C3: acquisition is idempotent.  If the file at `binary_path`
already exists and force-refresh was not requested, `ensure_binary`
returns that path immediately with an empty side-effect trace (no
network request, no directory creation, no file write); consequently,
after any successful non-forced call, a second non-forced call returns
the path with an empty trace, so network I/O happens only on the first
call. -/
theorem ensure_binary_idempotent :
    (∀ w : World, w.files.contains (binary_path w.env w.home w.version) = true →
      ensure_binary w false = (.ok (binary_path w.env w.home w.version), {})) ∧
    (∀ (w : World) (p : String) (t : Trace), ensure_binary w false = (.ok p, t) →
      ensure_binary (applyTrace w t) false =
        (.ok (binary_path w.env w.home w.version), {})) := by
  refine ⟨ensure_binary_hit, ?_⟩
  intro w p t h
  exact ensure_binary_hit (applyTrace w t) (ensure_binary_ok_after w p t h)

/-- Witness for C3: a world where the binary is already cached returns
it with no side effects, and a world that downloads successfully is
followed by a second call with no side effects. -/
theorem ensure_binary_idempotent_witness :
    ensure_binary
        ⟨["/h/.cache/mcpx-go/1.0/mcpx"], fun _ => none, "/h", "1.0", "Linux", "x86_64",
          fun _ => .urlError "offline", ⟨fun _ => true⟩⟩ false =
      (.ok "/h/.cache/mcpx-go/1.0/mcpx", {}) ∧
    ensure_binary
        (applyTrace
          ⟨[], fun _ => none, "/h", "1.0", "Linux", "x86_64",
            fun _ => .success (.ok [⟨"mcpx", true, some "B"⟩]), ⟨fun _ => true⟩⟩
          (ensure_binary
            ⟨[], fun _ => none, "/h", "1.0", "Linux", "x86_64",
              fun _ => .success (.ok [⟨"mcpx", true, some "B"⟩]), ⟨fun _ => true⟩⟩ false).2)
        false =
      (.ok "/h/.cache/mcpx-go/1.0/mcpx", {}) :=
  ⟨(ensure_binary_idempotent.1
      ⟨["/h/.cache/mcpx-go/1.0/mcpx"], fun _ => none, "/h", "1.0", "Linux", "x86_64",
        fun _ => .urlError "offline", ⟨fun _ => true⟩⟩ (by decide)).trans (by decide),
   (ensure_binary_idempotent.2
      ⟨[], fun _ => none, "/h", "1.0", "Linux", "x86_64",
        fun _ => .success (.ok [⟨"mcpx", true, some "B"⟩]), ⟨fun _ => true⟩⟩
      "/h/.cache/mcpx-go/1.0/mcpx"
      (ensure_binary
        ⟨[], fun _ => none, "/h", "1.0", "Linux", "x86_64",
          fun _ => .success (.ok [⟨"mcpx", true, some "B"⟩]), ⟨fun _ => true⟩⟩ false).2
      (by decide)).trans (by decide)⟩

/-- Claim C8: when `MCPX_GO_SKIP_DOWNLOAD` equals "1" and no binary
exists at `binary_path`, `ensure_binary` fails immediately with the
descriptive skip error and its trace is empty — in particular no
network request is attempted. -/
theorem ensure_binary_skip_download (w : World)
    (hskip : w.env "MCPX_GO_SKIP_DOWNLOAD" = some "1")
    (habsent : binary_path w.env w.home w.version ∉ w.files) :
    ensure_binary w false =
      (.error "bundled binary download skipped by MCPX_GO_SKIP_DOWNLOAD=1", {}) ∧
    (ensure_binary w false).2.netRequests = [] := by
  have hmain : ensure_binary w false =
      (.error "bundled binary download skipped by MCPX_GO_SKIP_DOWNLOAD=1", {}) := by
    simp [ensure_binary, habsent, hskip]
  exact ⟨hmain, by rw [hmain]⟩

/-- Witness for C8 on a concrete world with the flag set and an empty
filesystem. -/
theorem ensure_binary_skip_download_witness :
    ensure_binary
        ⟨[], fun k => if k = "MCPX_GO_SKIP_DOWNLOAD" then some "1" else none, "/h", "1.0",
          "Linux", "x86_64", fun _ => .urlError "unreachable", ⟨fun _ => true⟩⟩ false =
      (.error "bundled binary download skipped by MCPX_GO_SKIP_DOWNLOAD=1", {}) :=
  (ensure_binary_skip_download
    ⟨[], fun k => if k = "MCPX_GO_SKIP_DOWNLOAD" then some "1" else none, "/h", "1.0",
      "Linux", "x86_64", fun _ => .urlError "unreachable", ⟨fun _ => true⟩⟩
    (by decide) (by decide)).1

/-- Claim C4: `ensure_binary` never leaves the temporary archive file on
disk: its trace always ends with the temporary file absent.  On an
HTTP-level error the partial temporary file is deleted and the call
fails with an error naming the URL and the status code; on a
transport-level error it is deleted and the call fails with an error
naming the URL and the reason; and after a successful download the
temporary file was created and is deleted again regardless of the
extraction outcome. -/
theorem ensure_binary_tmp_cleanup :
    (∀ (w : World) (force : Bool), (ensure_binary w force).2.tmpOnDisk = false) ∧
    (∀ (w : World) (force : Bool) (goos goarch : String) (code : Nat),
      binary_path w.env w.home w.version ∉ w.files →
      w.env "MCPX_GO_SKIP_DOWNLOAD" ≠ some "1" →
      resolve_platform w.rawOS w.rawMachine = .ok (goos, goarch) →
      w.net (release_asset_url w.env w.version goos goarch) = .httpError code →
      ensure_binary w force =
        (.error ("failed to download " ++ release_asset_url w.env w.version goos goarch ++
            ": HTTP " ++ toString code),
         ⟨[release_asset_url w.env w.version goos goarch],
          [pathParent (binary_path w.env w.home w.version)], [], true, false⟩)) ∧
    (∀ (w : World) (force : Bool) (goos goarch reason : String),
      binary_path w.env w.home w.version ∉ w.files →
      w.env "MCPX_GO_SKIP_DOWNLOAD" ≠ some "1" →
      resolve_platform w.rawOS w.rawMachine = .ok (goos, goarch) →
      w.net (release_asset_url w.env w.version goos goarch) = .urlError reason →
      ensure_binary w force =
        (.error ("failed to download " ++ release_asset_url w.env w.version goos goarch ++
            ": " ++ reason),
         ⟨[release_asset_url w.env w.version goos goarch],
          [pathParent (binary_path w.env w.home w.version)], [], true, false⟩)) ∧
    (∀ (w : World) (force : Bool) (goos goarch : String)
        (archive : Except String (List TarEntry)),
      binary_path w.env w.home w.version ∉ w.files →
      w.env "MCPX_GO_SKIP_DOWNLOAD" ≠ some "1" →
      resolve_platform w.rawOS w.rawMachine = .ok (goos, goarch) →
      w.net (release_asset_url w.env w.version goos goarch) = .success archive →
      (ensure_binary w force).2.tmpCreated = true ∧
      (ensure_binary w force).2.tmpOnDisk = false) := by
  refine ⟨?_, ?_, ?_, ?_⟩
  · intro w force
    by_cases hmem : binary_path w.env w.home w.version ∈ w.files
    · cases force with
      | false => simp [ensure_binary, hmem]
      | true =>
        by_cases hskip : w.env "MCPX_GO_SKIP_DOWNLOAD" = some "1"
        · simp [ensure_binary, hskip]
        · cases hplat : resolve_platform w.rawOS w.rawMachine with
          | error e => simp [ensure_binary, hskip, hplat]
          | ok pr =>
            obtain ⟨goos, goarch⟩ := pr
            cases hnet : w.net (release_asset_url w.env w.version goos goarch) with
            | httpError code => simp [ensure_binary, hskip, hplat, hnet]
            | urlError reason => simp [ensure_binary, hskip, hplat, hnet]
            | success archive => simp [ensure_binary, hskip, hplat, hnet]
    · by_cases hskip : w.env "MCPX_GO_SKIP_DOWNLOAD" = some "1"
      · simp [ensure_binary, hmem, hskip]
      · cases hplat : resolve_platform w.rawOS w.rawMachine with
        | error e => simp [ensure_binary, hmem, hskip, hplat]
        | ok pr =>
          obtain ⟨goos, goarch⟩ := pr
          cases hnet : w.net (release_asset_url w.env w.version goos goarch) with
          | httpError code => simp [ensure_binary, hmem, hskip, hnet, hplat]
          | urlError reason => simp [ensure_binary, hmem, hskip, hnet, hplat]
          | success archive => simp [ensure_binary, hmem, hskip, hnet, hplat]
  · intro w force goos goarch code hmem hskip hplat hnet
    simp [ensure_binary, hmem, hskip, hplat, hnet]
  · intro w force goos goarch reason hmem hskip hplat hnet
    simp [ensure_binary, hmem, hskip, hplat, hnet]
  · intro w force goos goarch archive hmem hskip hplat hnet
    simp [ensure_binary, hmem, hskip, hplat, hnet]

/-- Witness for C4 on a concrete world whose download yields HTTP 404. -/
theorem ensure_binary_tmp_cleanup_witness :
    ensure_binary
        ⟨[], fun _ => none, "/h", "1.0", "Linux", "x86_64",
          fun _ => .httpError 404, ⟨fun _ => true⟩⟩ false =
      (.error ("failed to download https://github.com/lydakis/mcpx/releases/download/v1.0/mcpx_1.0_linux_amd64.tar.gz: HTTP 404"),
       ⟨["https://github.com/lydakis/mcpx/releases/download/v1.0/mcpx_1.0_linux_amd64.tar.gz"],
        ["/h/.cache/mcpx-go/1.0"], [], true, false⟩) :=
  (ensure_binary_tmp_cleanup.2.1
    ⟨[], fun _ => none, "/h", "1.0", "Linux", "x86_64",
      fun _ => .httpError 404, ⟨fun _ => true⟩⟩ false "linux" "amd64" 404
    (by decide) (by decide) (by decide) rfl).trans (by decide)

/-- Claim C9: whenever `ensure_binary` fails, `main` falls back to the
binary found on the executable search path, replacing the process with
it and forwarding `sys.argv[1:]` verbatim; when no fallback exists on
the search path, `main` writes exactly one diagnostic line of the form
`mcpx: <error message>` to stderr and returns exit status 1. -/
theorem main_fallback (w : World) (argv : List String) (e : String) (t : Trace)
    (hfail : ensure_binary w false = (.error e, t)) :
    (∀ fb : String, cli_main w (some fb) argv = (.execed fb (fb :: argv), [])) ∧
    cli_main w none argv = (.exited 1, ["mcpx: " ++ e ++ "\n"]) := by
  constructor
  · intro fb
    simp [cli_main, hfail]
  · simp [cli_main, hfail]

/-- Witness for C9 on a concrete world whose acquisition fails because
of the skip-download flag: with a fallback on the search path the
process is replaced; without one a single diagnostic line is printed
and the exit status is 1. -/
theorem main_fallback_witness :
    cli_main
        ⟨[], fun k => if k = "MCPX_GO_SKIP_DOWNLOAD" then some "1" else none, "/h", "1.0",
          "Linux", "x86_64", fun _ => .urlError "unreachable", ⟨fun _ => true⟩⟩
        (some "/usr/bin/mcpx") ["serve", "--port", "80"] =
      (.execed "/usr/bin/mcpx" ["/usr/bin/mcpx", "serve", "--port", "80"], []) ∧
    cli_main
        ⟨[], fun k => if k = "MCPX_GO_SKIP_DOWNLOAD" then some "1" else none, "/h", "1.0",
          "Linux", "x86_64", fun _ => .urlError "unreachable", ⟨fun _ => true⟩⟩
        none ["serve", "--port", "80"] =
      (.exited 1, ["mcpx: bundled binary download skipped by MCPX_GO_SKIP_DOWNLOAD=1\n"]) :=
  ⟨(main_fallback
      ⟨[], fun k => if k = "MCPX_GO_SKIP_DOWNLOAD" then some "1" else none, "/h", "1.0",
        "Linux", "x86_64", fun _ => .urlError "unreachable", ⟨fun _ => true⟩⟩
      ["serve", "--port", "80"]
      "bundled binary download skipped by MCPX_GO_SKIP_DOWNLOAD=1" {}
      (by decide)).1 "/usr/bin/mcpx",
   (main_fallback
      ⟨[], fun k => if k = "MCPX_GO_SKIP_DOWNLOAD" then some "1" else none, "/h", "1.0",
        "Linux", "x86_64", fun _ => .urlError "unreachable", ⟨fun _ => true⟩⟩
      ["serve", "--port", "80"]
      "bundled binary download skipped by MCPX_GO_SKIP_DOWNLOAD=1" {}
      (by decide)).2⟩
